import Mathlib

/-!
# Verification of the NFL game-outcome feature pipeline

Shallow embedding of the feature-engineering core of the `nfl-predictor`
repository:

* `src/nfl_games/utils/features.py` — `add_rolling_features` (per-entity
  shifted rolling statistics, neutral fills, differential features);
* `src/nfl_games/utils/preprocess.py` — `preprocess` (the `home_team_won`
  label);
* `src/nfl_games/utils/load_data.py` — `merge_with_spreadspoke` (the left
  join of secondary rolled statistics onto the primary table);
* `src/nfl_games/models/predict.py` — `get_team_recent_stats` (the
  point-in-time query).

Scores, rolling means and differentials are modelled over `ℚ`; a missing
(`NaN`) cell is `Option.none`.  Pandas `Series.shift(n)` and
`Series.rolling(w, min_periods=1).mean()` are embedded as explicit list
functions with the same semantics (a rolling window skips `NaN` entries and
yields `NaN` only when the window holds no observation at all).
-/

namespace NflPredictor

/-- One row of the primary game table (`spreadspoke` rows), as used by
`add_rolling_features`: `schedule_date` (modelled as an integer day number,
used for ordering and rest-day differences), `schedule_season`, the two team
identifiers and the two scores.  Scores are total here because
`add_rolling_features` consumes them as numerics; the nullable-score label
computation of `preprocess.py` is modelled separately below. -/
structure GameRow where
  date : Int
  season : Int
  home : String
  away : String
  scoreHome : ℚ
  scoreAway : ℚ
deriving DecidableEq, Repr

/-- The per-entity projection of a game (the `EntityGameView` of the spec):
the entity's game date, points scored and points allowed from that entity's
perspective.  Built by `entityGames` below, mirroring features.py lines
62–82 (`home_mask` / `away_mask` extraction of `points_scored`,
`points_allowed`). -/
structure EntityGame where
  date : Int
  scored : ℚ
  allowed : ℚ
deriving DecidableEq, Repr

/-- `won` indicator from features.py lines 75–76:
`(home_mask & score_home > score_away) | (away_mask & score_away > score_home)`
cast to float — in the entity's perspective, `1` iff it scored strictly more
than it allowed. -/
def wonVal (g : EntityGame) : ℚ :=
  if g.allowed < g.scored then 1 else 0

/-- The per-entity chronological game list extracted from the (sorted)
table, features.py lines 62–82: rows where the entity is home contribute
`(score_home, score_away)`, rows where it is away contribute
`(score_away, score_home)`; `np.where` tests the home mask first. -/
def entityGames (t : String) (rows : List GameRow) : List EntityGame :=
  rows.filterMap fun r =>
    if r.home = t then some ⟨r.date, r.scoreHome, r.scoreAway⟩
    else if r.away = t then some ⟨r.date, r.scoreAway, r.scoreHome⟩
    else none

/-- features.py lines 41–44: sort the table by `schedule_date` ascending,
then keep only seasons `≥ MODERN_START_YEAR = 2002`. -/
def addRollingPrep (rows : List GameRow) : List GameRow :=
  ((rows.mergeSort fun a b => a.date ≤ b.date).filter fun r => 2002 ≤ r.season)

/-- Arithmetic mean of a list of rationals (`0` on the empty list, which is
never used on an empty list by the rolling computation). -/
def mean (xs : List ℚ) : ℚ :=
  xs.sum / xs.length

/-- `pandas.Series.shift(n)`: the first `n` positions become missing, the
remaining positions take the value `n` places earlier; length is
preserved. -/
def shiftOpt (n : Nat) (xs : List (Option ℚ)) : List (Option ℚ) :=
  List.replicate (min n xs.length) none ++ xs.take (xs.length - n)

/-- The observations inside the rolling window ending at position `i` of
width `w`: the non-missing values among positions `i+1-w, …, i`. -/
def windowVals (w : Nat) (xs : List (Option ℚ)) (i : Nat) : List ℚ :=
  ((xs.take (i + 1)).drop (i + 1 - w)).reduceOption

/-- `pandas.Series.rolling(w, min_periods=1).mean()` at position `i`:
the mean of the non-missing values in the trailing width-`w` window, or
missing when the window holds no observation. -/
def rollingMeanAt (w : Nat) (xs : List (Option ℚ)) (i : Nat) : Option ℚ :=
  if windowVals w xs i = [] then none else some (mean (windowVals w xs i))

/-- The raw (pre-fill, possibly missing) rolling statistics attached to an
entity's game at index `i` of its chronological game list — the
`RollingSnapshot` before the `fillna` step of features.py lines 111–121. -/
structure RawSnapshot where
  avgPoints : Option ℚ
  avgAllowed : Option ℚ
  winPct : Option ℚ
  restDays : Option ℚ
  momentum : Option ℚ
deriving DecidableEq, Repr

/-- Rest days, features.py line 85: `team_dates.diff().dt.days` — missing at
the entity's first game, else the day difference to its previous game. -/
def restRaw (gs : List EntityGame) (i : Nat) : Option ℚ :=
  if i = 0 then none
  else
    match gs[i]?, gs[i - 1]? with
    | some a, some b => some ((a.date - b.date : Int) : ℚ)
    | _, _ => none

/-- Momentum, features.py lines 94–96:
`recent = shift(1).rolling(w, min_periods=1).mean()`,
`older = shift(w+1).rolling(w, min_periods=1).mean()`, `recent - older`
(missing when either side is missing, as `NaN` propagates through `-`). -/
def momentumRaw (w : Nat) (gs : List EntityGame) (i : Nat) : Option ℚ :=
  match rollingMeanAt w (shiftOpt 1 (gs.map fun g => some g.scored)) i,
      rollingMeanAt w (shiftOpt (w + 1) (gs.map fun g => some g.scored)) i with
  | some r, some o => some (r - o)
  | _, _ => none

/-- The raw rolling statistics of features.py lines 85–96 for the game at
index `i` of an entity's chronological game list. -/
def rawSnapshot (w : Nat) (gs : List EntityGame) (i : Nat) : RawSnapshot where
  avgPoints := rollingMeanAt w (shiftOpt 1 (gs.map fun g => some g.scored)) i
  avgAllowed := rollingMeanAt w (shiftOpt 1 (gs.map fun g => some g.allowed)) i
  winPct := rollingMeanAt w (shiftOpt 1 (gs.map fun g => some (wonVal g))) i
  restDays := restRaw gs i
  momentum := momentumRaw w gs i

/-- The filled rolling statistics (all defined). -/
structure Snapshot where
  avgPoints : ℚ
  avgAllowed : ℚ
  winPct : ℚ
  restDays : ℚ
  momentum : ℚ
deriving DecidableEq, Repr

/-- The neutral fills of features.py lines 111–121: average points `21`,
win percentage `0.5`, rest days `7`, momentum `0`. -/
def fillSnapshot (r : RawSnapshot) : Snapshot where
  avgPoints := r.avgPoints.getD 21
  avgAllowed := r.avgAllowed.getD 21
  winPct := r.winPct.getD (1 / 2)
  restDays := r.restDays.getD 7
  momentum := r.momentum.getD 0

/-- The filled `RollingSnapshot` that `add_rolling_features` attaches to the
game at index `i` of an entity's chronological game list. -/
def snapshot (w : Nat) (gs : List EntityGame) (i : Nat) : Snapshot :=
  fillSnapshot (rawSnapshot w gs i)

/-- The snapshot attached, for entity `t`, to its `k`-th game of the sorted
and season-filtered table — the composition of features.py lines 41–44
(sort, filter), 62–82 (per-entity extraction) and 85–121 (rolling stats and
fills). -/
def snapshotOfTable (w : Nat) (rows : List GameRow) (t : String) (k : Nat) :
    Snapshot :=
  snapshot w (entityGames t (addRollingPrep rows)) k

/-- The five differential features of features.py lines 124–128, from the
home side's and the away side's filled snapshots.  Note the orientation of
`avg_allowed_diff`, which is away-minus-home in the source. -/
structure DiffFeatures where
  avgPointsDiff : ℚ
  avgAllowedDiff : ℚ
  winPctDiff : ℚ
  restDaysDiff : ℚ
  momentumDiff : ℚ
deriving DecidableEq, Repr

/-- features.py lines 124–128. -/
def diffFeatures (h a : Snapshot) : DiffFeatures where
  avgPointsDiff := h.avgPoints - a.avgPoints
  avgAllowedDiff := a.avgAllowed - h.avgAllowed
  winPctDiff := h.winPct - a.winPct
  restDaysDiff := h.restDays - a.restDays
  momentumDiff := h.momentum - a.momentum

/-! ### The outcome label (`preprocess.py`) -/

/-- A raw game row as seen by `preprocess`: the two scores, each possibly
missing (`NaN` for a not-yet-played game). -/
structure RawRow where
  scoreHome : Option ℚ
  scoreAway : Option ℚ
deriving DecidableEq, Repr

/-- The pandas comparison `df["score_home"] > df["score_away"]`
(preprocess.py line 17): `True` exactly when both scores are present and
the home score is strictly greater; any comparison with `NaN` is
`False`. -/
def homeWonB : Option ℚ → Option ℚ → Bool
  | some sh, some sa => decide (sa < sh)
  | _, _ => false

/-- A row with the derived `home_team_won` target column attached. -/
structure LabeledRow where
  row : RawRow
  homeTeamWon : Nat
deriving DecidableEq, Repr

/-- preprocess.py lines 12–20: every row receives
`home_team_won = (score_home > score_away).astype(int)`; no row is
dropped. -/
def preprocess (df : List RawRow) : List LabeledRow :=
  df.map fun r => ⟨r, if homeWonB r.scoreHome r.scoreAway then 1 else 0⟩

/-! ### The cross-source merge (`load_data.py`, `merge_with_spreadspoke`) -/

/-- The merge key of load_data.py lines 330–335:
`(schedule_season, schedule_week, team_home, team_away)` on the primary
side, `(season, week, home_team, away_team)` on the secondary side (week
already converted to a string on line 327). -/
structure MergeKey where
  season : Int
  period : String
  home : String
  away : String
deriving DecidableEq, Repr

/-- A primary (spreadspoke) row: its merge key plus an opaque row identity
standing for the remaining spreadspoke columns. -/
structure PrimaryRow where
  key : MergeKey
  rowId : Nat
deriving DecidableEq, Repr

/-- A secondary (rolled nflfastR statistics) row: its merge key plus a
value standing for the attached `home_*`/`away_*` statistics columns. -/
structure SecondaryRow where
  key : MergeKey
  stats : ℚ
deriving DecidableEq, Repr

/-- load_data.py lines 330–335: `spreadspoke_df.merge(game_stats, …,
how='left')`.  Pandas left-join semantics: each primary row, in order,
is paired with every secondary row whose key matches (in secondary
order); a primary row with no match yields a single row with the
secondary columns missing.  No duplicate-key check precedes the join. -/
def mergeWithSpreadspoke (primary : List PrimaryRow) (secondary : List SecondaryRow) :
    List (PrimaryRow × Option SecondaryRow) :=
  primary.flatMap fun p =>
    match secondary.filter fun s => s.key = p.key with
    | [] => [(p, none)]
    | ms => ms.map fun s => (p, some s)

/-! ### The point-in-time query (`predict.py`, `get_team_recent_stats`) -/

/-- The statistics dictionary returned by `get_team_recent_stats`. -/
structure PredStats where
  avgPoints : ℚ
  avgAllowed : ℚ
  winPct : ℚ
  momentum : ℚ
deriving DecidableEq, Repr

/-- predict.py lines 16–58: take the entity's games sorted most-recent
first (the reverse of its chronological list), keep the first `n`
(`head(n)`), build `points_scored` / `points_allowed` lists in that order,
count wins, and return `avg_points`, `avg_allowed`,
`win_pct = wins / len(recent_games)` and
`momentum = mean(points_scored[-2:]) - mean(points_scored[:2])` when at
least 3 games were kept, else `0`.  Returns `None` for an entity with no
games at all. -/
def getTeamRecentStats (gs : List EntityGame) (n : Nat) : Option PredStats :=
  if gs.isEmpty then none
  else some
    { avgPoints := mean ((gs.reverse.take n).map EntityGame.scored)
      avgAllowed := mean ((gs.reverse.take n).map EntityGame.allowed)
      winPct := (((gs.reverse.take n).filter fun g => g.allowed < g.scored).length : ℚ) /
        (gs.reverse.take n).length
      momentum :=
        if 3 ≤ ((gs.reverse.take n).map EntityGame.scored).length then
          mean (((gs.reverse.take n).map EntityGame.scored).drop
            (((gs.reverse.take n).map EntityGame.scored).length - 2)) -
          mean (((gs.reverse.take n).map EntityGame.scored).take 2)
        else 0 }

/-! ## Helper lemmas: characterizing shift-then-window -/

lemma reduceOption_replicate_none (n : Nat) :
    (List.replicate n (none : Option ℚ)).reduceOption = [] := by
  induction n with
  | zero => rfl
  | succ n ih => simpa [List.replicate_succ, List.reduceOption_cons_of_none] using ih

lemma reduceOption_map_some (l : List ℚ) : (l.map some).reduceOption = l := by
  induction l with
  | nil => rfl
  | cons a t ih => simpa [List.reduceOption_cons_of_some] using ih

/-- Taking the first `i+1` entries of a series shifted by `m`: a missing
prefix followed by the first `i+1-m` original values. -/
lemma shiftOpt_take (m : Nat) (xs : List ℚ) (i : Nat) (hi : i < xs.length) :
    (shiftOpt m (xs.map some)).take (i + 1) =
      List.replicate (min (i + 1) m) (none : Option ℚ) ++ (xs.take (i + 1 - m)).map some := by
  rw [shiftOpt, List.length_map, List.take_append_eq_append_take, List.take_replicate,
    List.length_replicate, ← List.map_take, ← List.map_take, List.take_take]
  have h1 : min (i + 1) (min m xs.length) = min (i + 1) m := by omega
  have h2 : min (i + 1 - min m xs.length) (xs.length - m) = i + 1 - m := by omega
  rw [h1, h2]

/-- The observations in the width-`w` window at position `i` of a series
shifted by `m` are exactly the original values at positions
`i+1-m-w, …, i-m`. -/
lemma windowVals_shift (m w : Nat) (xs : List ℚ) (i : Nat) (hi : i < xs.length) :
    windowVals w (shiftOpt m (xs.map some)) i =
      (xs.take (i + 1 - m)).drop (i + 1 - m - w) := by
  rw [windowVals, shiftOpt_take m xs i hi, List.drop_append_eq_append_drop,
    List.drop_replicate, List.length_replicate, List.reduceOption_append,
    reduceOption_replicate_none, ← List.map_drop, reduceOption_map_some, List.nil_append]
  congr 1
  omega

/-- `shift(m)` followed by `rolling(w, min_periods=1).mean()` at position
`i`: missing for the first `m` positions, else the mean of the (nonempty)
block of original values at positions `i+1-m-w, …, i-m`. -/
lemma rollingMeanAt_shift (m w : Nat) (hw : 1 ≤ w) (xs : List ℚ) (i : Nat)
    (hi : i < xs.length) :
    rollingMeanAt w (shiftOpt m (xs.map some)) i =
      if i < m then none
      else some (mean ((xs.take (i + 1 - m)).drop (i + 1 - m - w))) := by
  rw [rollingMeanAt, windowVals_shift m w xs i hi]
  rcases Nat.lt_or_ge i m with h | h
  · have h0 : i + 1 - m = 0 := by omega
    simp [h0, h]
  · have hne : (xs.take (i + 1 - m)).drop (i + 1 - m - w) ≠ [] := by
      apply List.length_pos.mp
      rw [List.length_drop, List.length_take]
      omega
    rw [if_neg hne, if_neg (by omega)]

/-- The `shift(1).rolling(w, min_periods=1).mean()` statistic of any
per-game numeric `f`, at index `i` of an entity's game list: missing at the
entity's first game, else the mean of the last `min w i` values of `f`
over the games strictly before `i`. -/
lemma rollingField_char (w : Nat) (hw : 1 ≤ w) (f : EntityGame → ℚ)
    (gs : List EntityGame) (i : Nat) (hi : i < gs.length) :
    rollingMeanAt w (shiftOpt 1 (gs.map fun g => some (f g))) i =
      if i = 0 then none else some (mean (((gs.map f).take i).drop (i - w))) := by
  have hmap : (gs.map fun g => some (f g)) = (gs.map f).map some := by
    rw [List.map_map]; rfl
  rw [hmap, rollingMeanAt_shift 1 w hw (gs.map f) i (by simpa using hi)]
  simp [Nat.lt_one_iff, Nat.add_sub_cancel]

/-- Momentum (features.py lines 94–96) characterized: missing until the
entity has `w+1` strictly prior games, and from then on the mean of the
last `min w i` prior values minus the mean of the `min w (i-w)` values
preceding that block. -/
lemma momentumRaw_char (w : Nat) (hw : 1 ≤ w) (gs : List EntityGame) (i : Nat)
    (hi : i < gs.length) :
    momentumRaw w gs i =
      if i < w + 1 then none
      else some (mean (((gs.map EntityGame.scored).take i).drop (i - w)) -
        mean (((gs.map EntityGame.scored).take (i - w)).drop (i - 2 * w))) := by
  have hmap : (gs.map fun g => some g.scored) = (gs.map EntityGame.scored).map some := by
    rw [List.map_map]; rfl
  have h1 := rollingField_char w hw EntityGame.scored gs i hi
  have h2 := rollingMeanAt_shift (w + 1) w hw (gs.map EntityGame.scored) i (by simpa using hi)
  rw [momentumRaw, hmap] at *
  rw [h1, h2]
  rcases Nat.lt_or_ge i (w + 1) with h | h
  · rw [if_pos h, if_pos h]
    rcases Nat.eq_zero_or_pos i with h0 | h0
    · rw [if_pos h0]
    · rw [if_neg (by omega)]
  · rw [if_neg (by omega), if_neg (by omega), if_neg (by omega)]
    have e1 : i + 1 - (w + 1) = i - w := by omega
    rw [e1]
    have e2 : i - w - w = i - 2 * w := by omega
    rw [e2]

/-- `shift(1).rolling(w, min_periods=1)` is always missing at position 0:
the shifted series has no observation there. -/
lemma rollingMeanAt_shift1_zero (w : Nat) (xs : List (Option ℚ)) :
    rollingMeanAt w (shiftOpt 1 xs) 0 = none := by
  have h : windowVals w (shiftOpt 1 xs) 0 = [] := by
    rw [windowVals, shiftOpt]
    cases xs with
    | nil => simp
    | cons a t =>
      cases w with
      | zero => simp
      | succ w => simp [List.reduceOption_cons_of_none]
  simp [rollingMeanAt, h]

/-! ## The claims -/

/-- C1: no-lookahead.  For an entity's chronological game list, the filled
rolling snapshot attached at index `i` depends only on the games up to and
including index `i`: two lists that agree on their first `i+1` games (the
later games mutated or removed) receive identical snapshots at `i`. -/
theorem no_lookahead_snapshot (w : Nat) (gs1 gs2 : List EntityGame) (i : Nat)
    (h1 : i < gs1.length) (h2 : i < gs2.length)
    (hpre : gs1.take (i + 1) = gs2.take (i + 1)) :
    snapshot w gs1 i = snapshot w gs2 i := by
  have hflat : ∀ f : EntityGame → ℚ, ∀ j, j ≤ i + 1 →
      (gs1.map f).take j = (gs2.map f).take j := by
    intro f j hj
    rw [← List.map_take, ← List.map_take]
    congr 1
    calc gs1.take j = (gs1.take (i + 1)).take j := by
          rw [List.take_take, min_eq_left hj]
      _ = (gs2.take (i + 1)).take j := by rw [hpre]
      _ = gs2.take j := by rw [List.take_take, min_eq_left hj]
  have hfield : ∀ (m : Nat) (f : EntityGame → ℚ),
      rollingMeanAt w (shiftOpt m (gs1.map fun g => some (f g))) i =
      rollingMeanAt w (shiftOpt m (gs2.map fun g => some (f g))) i := by
    intro m f
    have hm1 : (gs1.map fun g => some (f g)) = (gs1.map f).map some := by
      rw [List.map_map]; rfl
    have hm2 : (gs2.map fun g => some (f g)) = (gs2.map f).map some := by
      rw [List.map_map]; rfl
    rw [hm1, hm2, rollingMeanAt, rollingMeanAt,
      windowVals_shift m w (gs1.map f) i (by simpa using h1),
      windowVals_shift m w (gs2.map f) i (by simpa using h2),
      hflat f (i + 1 - m) (by omega)]
  have hget : ∀ j, j < i + 1 → gs1[j]? = gs2[j]? := by
    intro j hj
    rw [← List.getElem?_take_of_lt (l := gs1) hj, hpre, List.getElem?_take_of_lt hj]
  have hrest : restRaw gs1 i = restRaw gs2 i := by
    rcases Nat.eq_zero_or_pos i with h0 | h0
    · subst h0; rfl
    · rw [restRaw, restRaw, hget i (by omega), hget (i - 1) (by omega)]
  have hmom : momentumRaw w gs1 i = momentumRaw w gs2 i := by
    rw [momentumRaw, momentumRaw, hfield 1 EntityGame.scored,
      hfield (w + 1) EntityGame.scored]
  have hraw : rawSnapshot w gs1 i = rawSnapshot w gs2 i := by
    simp only [rawSnapshot, RawSnapshot.mk.injEq]
    exact ⟨hfield 1 _, hfield 1 _, hfield 1 _, hrest, hmom⟩
  rw [snapshot, snapshot, hraw]

/-- Witness for C1: truncating an entity's history after its first game
leaves the snapshot at that first game unchanged. -/
theorem no_lookahead_snapshot_witness :
    snapshot 3 [⟨0, 21, 14⟩, ⟨9, 3, 45⟩] 0 = snapshot 3 [⟨0, 21, 14⟩] 0 :=
  no_lookahead_snapshot 3 [⟨0, 21, 14⟩, ⟨9, 3, 45⟩] [⟨0, 21, 14⟩] 0
    (by decide) (by decide) rfl

/-- C2: for a game at index `i ≥ 1` of an entity's chronological list, the
attached rolling points average is the arithmetic mean of the
`min window i` games strictly before `i` — the trailing window of the
strict prefix, never including game `i` itself. -/
theorem avg_points_prior_window_mean (w : Nat) (hw : 1 ≤ w) (gs : List EntityGame)
    (i : Nat) (hi : i < gs.length) (hk : 1 ≤ i) :
    (snapshot w gs i).avgPoints =
      mean (((gs.map EntityGame.scored).take i).drop (i - w)) ∧
    (((gs.map EntityGame.scored).take i).drop (i - w)).length = min w i := by
  constructor
  · have h := rollingField_char w hw EntityGame.scored gs i hi
    simp only [snapshot, fillSnapshot, rawSnapshot]
    rw [h, if_neg (by omega)]
    rfl
  · rw [List.length_drop, List.length_take, List.length_map]
    omega

/-- Witness for C2, the spec's scenario: an entity whose only two prior
games scored 20 and 30 points gets `avg_points = 25` at its third game
(window 3, expanding). -/
theorem avg_points_prior_window_mean_witness :
    (snapshot 3 [⟨0, 20, 14⟩, ⟨7, 30, 10⟩, ⟨14, 13, 27⟩] 2).avgPoints = 25 := by
  have h := (avg_points_prior_window_mean 3 (by decide)
    [⟨0, 20, 14⟩, ⟨7, 30, 10⟩, ⟨14, 13, 27⟩] 2 (by decide) (by decide)).1
  rw [h]
  norm_num [mean]

/-- C3 counterexample: with window 3, an entity's game with only 4 strictly
prior games (fewer than the claimed `2·3 + 1 = 7`) already receives a
nonzero momentum — the `older` block is computed with an expanding
(min-periods 1) window, so momentum becomes defined as soon as `window + 1`
prior games exist.  Here prior scores are `10, 10, 10, 40`, so
`recent = mean(10, 10, 40) = 20`, `older = mean(10) = 10`,
momentum `= 10 ≠ 0`. -/
theorem momentum_threshold_cex :
    (snapshot 3 [⟨0, 10, 0⟩, ⟨7, 10, 0⟩, ⟨14, 10, 0⟩, ⟨21, 40, 0⟩, ⟨28, 10, 0⟩] 4).momentum
      = 10 ∧
    (snapshot 3 [⟨0, 10, 0⟩, ⟨7, 10, 0⟩, ⟨14, 10, 0⟩, ⟨21, 40, 0⟩, ⟨28, 10, 0⟩] 4).momentum
      ≠ 0 := by
  constructor <;>
  · simp +decide [snapshot, fillSnapshot, rawSnapshot, momentumRaw, rollingMeanAt,
      windowVals, shiftOpt, mean, List.replicate_succ]
    norm_num

/-- C3 (amended): momentum at game `i` is `0` until the entity has at least
`window + 1` strictly prior games; from then on it equals (mean of the last
`min window i` prior games) − (mean of the `min window (i−window)` games
preceding that block) — the older block reaches the full `window` games
only once `i ≥ 2·window`. -/
theorem momentum_characterization (w : Nat) (hw : 1 ≤ w) (gs : List EntityGame)
    (i : Nat) (hi : i < gs.length) :
    (snapshot w gs i).momentum =
      (if i < w + 1 then 0
       else mean (((gs.map EntityGame.scored).take i).drop (i - w)) -
         mean (((gs.map EntityGame.scored).take (i - w)).drop (i - 2 * w))) ∧
    (((gs.map EntityGame.scored).take (i - w)).drop (i - 2 * w)).length
      = min w (i - w) := by
  constructor
  · have h := momentumRaw_char w hw gs i hi
    simp only [snapshot, fillSnapshot, rawSnapshot]
    rw [h]
    rcases Nat.lt_or_ge i (w + 1) with hc | hc
    · rw [if_pos hc, if_pos hc]; rfl
    · rw [if_neg (by omega), if_neg (by omega)]; rfl
  · rw [List.length_drop, List.length_take, List.length_map]
    omega

/-- Witness for C3 (amended) at the counterexample input: at index 4 with
window 3 the momentum is `mean(10,10,40) − mean(10) = 10`. -/
theorem momentum_characterization_witness :
    (snapshot 3 [⟨0, 10, 0⟩, ⟨7, 10, 0⟩, ⟨14, 10, 0⟩, ⟨21, 40, 0⟩, ⟨28, 10, 0⟩] 4).momentum
      = mean [10, 10, 40] - mean [10] := by
  have h := (momentum_characterization 3 (by decide)
    [⟨0, 10, 0⟩, ⟨7, 10, 0⟩, ⟨14, 10, 0⟩, ⟨21, 40, 0⟩, ⟨28, 10, 0⟩] 4 (by decide)).1
  rw [h, if_neg (by decide)]
  norm_num

/-- C6: coverage by neutral fills.  Every rolling cell that the raw
computation leaves undefined is filled with its league-neutral default —
`21` points, win percentage `0.5`, `7` rest days, `0` momentum — and in
particular an entity's first-ever game receives the full default snapshot
`⟨21, 21, 0.5, 7, 0⟩` (so `rest_days = 7` and `win_pct = 0.5` there).  The
differential features are differences of filled snapshots, hence defined
on every row as well. -/
theorem neutral_fill_coverage (w : Nat) (gs : List EntityGame) (i : Nat) :
    ((rawSnapshot w gs i).avgPoints = none → (snapshot w gs i).avgPoints = 21) ∧
    ((rawSnapshot w gs i).avgAllowed = none → (snapshot w gs i).avgAllowed = 21) ∧
    ((rawSnapshot w gs i).winPct = none → (snapshot w gs i).winPct = 1 / 2) ∧
    ((rawSnapshot w gs i).restDays = none → (snapshot w gs i).restDays = 7) ∧
    ((rawSnapshot w gs i).momentum = none → (snapshot w gs i).momentum = 0) ∧
    snapshot w gs 0 = ⟨21, 21, 1 / 2, 7, 0⟩ := by
  refine ⟨fun h => by simp [snapshot, fillSnapshot, h],
    fun h => by simp [snapshot, fillSnapshot, h],
    fun h => by simp [snapshot, fillSnapshot, h],
    fun h => by simp [snapshot, fillSnapshot, h],
    fun h => by simp [snapshot, fillSnapshot, h], ?_⟩
  have h1 : (rawSnapshot w gs 0).avgPoints = none := rollingMeanAt_shift1_zero w _
  have h2 : (rawSnapshot w gs 0).avgAllowed = none := rollingMeanAt_shift1_zero w _
  have h3 : (rawSnapshot w gs 0).winPct = none := rollingMeanAt_shift1_zero w _
  have h4 : (rawSnapshot w gs 0).restDays = none := rfl
  have h5 : (rawSnapshot w gs 0).momentum = none := by
    show momentumRaw w gs 0 = none
    rw [momentumRaw, rollingMeanAt_shift1_zero]
  simp [snapshot, fillSnapshot, h1, h2, h3, h4, h5]

/-- Witness for C6: a single-game entity's first game receives every
neutral default. -/
theorem neutral_fill_coverage_witness :
    (snapshot 3 [⟨0, 24, 17⟩] 0).avgPoints = 21 ∧
    (snapshot 3 [⟨0, 24, 17⟩] 0).avgAllowed = 21 ∧
    (snapshot 3 [⟨0, 24, 17⟩] 0).winPct = 1 / 2 ∧
    (snapshot 3 [⟨0, 24, 17⟩] 0).restDays = 7 ∧
    (snapshot 3 [⟨0, 24, 17⟩] 0).momentum = 0 := by
  have h := neutral_fill_coverage 3 [⟨0, 24, 17⟩] 0
  exact ⟨h.1 rfl, h.2.1 rfl, h.2.2.1 rfl, h.2.2.2.1 rfl, h.2.2.2.2.1 rfl⟩

/-- C7 counterexample: `preprocess` on a row with both scores missing (an
unplayed game).  The row is not dropped, and `home_team_won` is not left
undefined: the row is retained with the defined label `0` — the pandas
comparison with `NaN` is `False`, so `0` is fabricated for the unplayed
game.  There is no training/inference configuration in the code. -/
theorem preprocess_missing_retained_cex :
    preprocess [⟨none, none⟩] = [⟨⟨none, none⟩, 0⟩] := rfl

/-- C7 (amended): `preprocess` computes `home_team_won` for **every** row —
`1` exactly when both scores are present and the home score is strictly
greater, and `0` in every other case (away win, tie, or any missing
score); every row is retained, in order, with no configuration. -/
theorem preprocess_label_total (df : List RawRow) :
    (preprocess df).map LabeledRow.row = df ∧
    ∀ lr ∈ preprocess df,
      (∀ a b, lr.row.scoreHome = some a → lr.row.scoreAway = some b →
        lr.homeTeamWon = if b < a then 1 else 0) ∧
      (lr.row.scoreHome = none ∨ lr.row.scoreAway = none → lr.homeTeamWon = 0) := by
  constructor
  · induction df with
    | nil => rfl
    | cons r t ih => simpa [preprocess] using ih
  · intro lr hlr
    rw [preprocess, List.mem_map] at hlr
    obtain ⟨r, _, rfl⟩ := hlr
    refine ⟨fun a b ha hb => ?_, fun h => ?_⟩
    · simp only at ha hb
      simp [homeWonB, ha, hb]
    · simp only at h
      rcases h with h | h <;>
        cases hr2 : r.scoreAway <;> cases hr1 : r.scoreHome <;> simp_all [homeWonB]

/-- Witness for C7 (amended) on a concrete two-row table: a played game
labeled by score comparison, an unplayed game labeled `0`, both rows
retained. -/
theorem preprocess_label_total_witness :
    (preprocess [⟨some 27, some 24⟩, ⟨none, some 10⟩]).map LabeledRow.row
      = [⟨some 27, some 24⟩, ⟨none, some 10⟩] ∧
    (⟨⟨none, some 10⟩, 0⟩ : LabeledRow).homeTeamWon = 0 := by
  have h := preprocess_label_total [⟨some 27, some 24⟩, ⟨none, some 10⟩]
  refine ⟨h.1, ?_⟩
  exact (h.2 ⟨⟨none, some 10⟩, 0⟩ (by decide)).2 (Or.inl rfl)

/-- C10 (implicit): a row whose `score_home` or `score_away` is missing, or
whose two scores are equal, is kept by `preprocess` at its position with
the label `home_team_won = 0` — unplayed or tied games get the away-win
label rather than being dropped or left unlabeled. -/
theorem preprocess_missing_or_tied_label_zero (df : List RawRow) (i : Nat)
    (hi : i < df.length)
    (h : df[i].scoreHome = none ∨ df[i].scoreAway = none ∨
      df[i].scoreHome = df[i].scoreAway) :
    (preprocess df)[i]? = some ⟨df[i], 0⟩ := by
  rw [preprocess, List.getElem?_map, List.getElem?_eq_getElem hi]
  have hb : homeWonB df[i].scoreHome df[i].scoreAway = false := by
    rcases h with h | h | h
    · rw [h]; rfl
    · rw [h]; cases df[i].scoreHome <;> rfl
    · rw [h]; cases df[i].scoreAway with
      | none => rfl
      | some a => simp [homeWonB]
  simp [hb]

/-- Witness for C10: a tied game (20–20) and a score-missing game are both
kept with label `0`. -/
theorem preprocess_missing_or_tied_label_zero_witness :
    (preprocess [⟨some 20, some 20⟩, ⟨some 31, none⟩])[0]?
      = some ⟨⟨some 20, some 20⟩, 0⟩ ∧
    (preprocess [⟨some 20, some 20⟩, ⟨some 31, none⟩])[1]?
      = some ⟨⟨some 31, none⟩, 0⟩ := by
  constructor
  · exact preprocess_missing_or_tied_label_zero [⟨some 20, some 20⟩, ⟨some 31, none⟩]
      0 (by decide) (Or.inr (Or.inr rfl))
  · exact preprocess_missing_or_tied_label_zero [⟨some 20, some 20⟩, ⟨some 31, none⟩]
      1 (by decide) (Or.inr (Or.inl rfl))

/-- C9 counterexample: for a tied game (20–20) the `home_won` label does
**not** flip under the home/away swap — `score_home > score_away` is
`False` in both orientations, so both mirrored rows are labeled `0`. -/
theorem mirror_label_tie_cex :
    ¬(homeWonB (some 20) (some 20) = !homeWonB (some 20) (some 20)) := by
  simp [homeWonB]

/-- C9 (amended): swapping the home and away sides negates every one of the
five differential features for any pair of side snapshots; the `home_won`
label flips under the swap exactly when both scores are present and
distinct (for a tie — or a missing score — both orientations are labeled
`0`). -/
theorem mirror_symmetry (h a : Snapshot) (x y : ℚ) (hxy : x ≠ y) :
    (diffFeatures a h).avgPointsDiff = -(diffFeatures h a).avgPointsDiff ∧
    (diffFeatures a h).avgAllowedDiff = -(diffFeatures h a).avgAllowedDiff ∧
    (diffFeatures a h).winPctDiff = -(diffFeatures h a).winPctDiff ∧
    (diffFeatures a h).restDaysDiff = -(diffFeatures h a).restDaysDiff ∧
    (diffFeatures a h).momentumDiff = -(diffFeatures h a).momentumDiff ∧
    homeWonB (some y) (some x) = !homeWonB (some x) (some y) := by
  refine ⟨by simp [diffFeatures], by simp [diffFeatures], by simp [diffFeatures],
    by simp [diffFeatures], by simp [diffFeatures], ?_⟩
  rcases lt_or_gt_of_ne hxy with hlt | hgt
  · simp [homeWonB, hlt, asymm hlt]
  · simp [homeWonB, hgt, asymm hgt]

/-- Witness for C9 (amended) at concrete snapshots and the score pair
`(27, 17)`: every differential negates and the label flips. -/
theorem mirror_symmetry_witness :
    (diffFeatures ⟨6, 7, 8, 9, 10⟩ ⟨1, 2, 3, 4, 5⟩).avgPointsDiff
      = -(diffFeatures ⟨1, 2, 3, 4, 5⟩ ⟨6, 7, 8, 9, 10⟩).avgPointsDiff ∧
    homeWonB (some 17) (some 27) = !homeWonB (some 27) (some 17) := by
  have h := mirror_symmetry ⟨1, 2, 3, 4, 5⟩ ⟨6, 7, 8, 9, 10⟩ 27 17 (by norm_num)
  exact ⟨h.1, h.2.2.2.2.2⟩

/-- C4 counterexample: a primary table of one row merged against a
secondary table in which that row's key appears twice yields **two** output
rows, not one per primary row — the left join multiplies rows on duplicate
keys, so the row-count law fails for such a secondary table. -/
theorem merge_rowcount_cex :
    (mergeWithSpreadspoke [⟨⟨2024, "3", "A", "B"⟩, 7⟩]
      [⟨⟨2024, "3", "A", "B"⟩, 5⟩, ⟨⟨2024, "3", "A", "B"⟩, 6⟩]).length = 2 ∧
    ([⟨⟨2024, "3", "A", "B"⟩, 7⟩] : List PrimaryRow).length = 1 := by
  exact ⟨rfl, rfl⟩

/-- C4 (amended): **when every merge key appears at most once in the
secondary table**, the merge returns exactly one row per primary row, in
order (so `len(merge(primary, secondary)) = len(primary)`), and a primary
row with no matching key is kept with the secondary columns missing. -/
theorem merge_rowcount_of_unique_keys (primary : List PrimaryRow)
    (secondary : List SecondaryRow)
    (huniq : ∀ k : MergeKey, (secondary.filter fun s => s.key = k).length ≤ 1) :
    (mergeWithSpreadspoke primary secondary).map Prod.fst = primary ∧
    ∀ p ∈ primary, (secondary.filter fun s => s.key = p.key) = [] →
      (p, (none : Option SecondaryRow)) ∈ mergeWithSpreadspoke primary secondary := by
  constructor
  · induction primary with
    | nil => rfl
    | cons p t ih =>
      rw [mergeWithSpreadspoke, List.flatMap_cons, List.map_append]
      rw [mergeWithSpreadspoke] at ih
      rcases hf : secondary.filter fun s => s.key = p.key with _ | ⟨s, ms⟩
      · rw [hf]
        simp [ih]
      · have hle := huniq p.key
        rw [hf] at hle
        have hms : ms = [] := by
          cases ms with
          | nil => rfl
          | cons s2 t2 => simp at hle
        subst hms
        rw [hf]
        simp [ih]
  · intro p hp hemp
    refine List.mem_flatMap.mpr ⟨p, hp, ?_⟩
    rw [hemp]
    exact List.mem_singleton.mpr rfl

/-- Witness for C4 (amended): a two-row primary against a one-row,
duplicate-free secondary — one output row per primary row, and the
unmatched primary row carries no secondary columns. -/
theorem merge_rowcount_of_unique_keys_witness :
    (mergeWithSpreadspoke
      [⟨⟨2023, "14", "X", "Y"⟩, 0⟩, ⟨⟨2023, "15", "X", "Z"⟩, 1⟩]
      [⟨⟨2023, "14", "X", "Y"⟩, 3⟩]).map Prod.fst
      = [⟨⟨2023, "14", "X", "Y"⟩, 0⟩, ⟨⟨2023, "15", "X", "Z"⟩, 1⟩] ∧
    (⟨⟨2023, "15", "X", "Z"⟩, 1⟩, (none : Option SecondaryRow)) ∈
      mergeWithSpreadspoke
        [⟨⟨2023, "14", "X", "Y"⟩, 0⟩, ⟨⟨2023, "15", "X", "Z"⟩, 1⟩]
        [⟨⟨2023, "14", "X", "Y"⟩, 3⟩] := by
  have h := merge_rowcount_of_unique_keys
    [⟨⟨2023, "14", "X", "Y"⟩, 0⟩, ⟨⟨2023, "15", "X", "Z"⟩, 1⟩]
    [⟨⟨2023, "14", "X", "Y"⟩, 3⟩]
    (fun k => List.length_filter_le _ _)
  exact ⟨h.1, h.2 ⟨⟨2023, "15", "X", "Z"⟩, 1⟩ (by decide) (by decide)⟩

/-- C5 counterexample: the spec's scenario key `(2023, "14", X, Y)` appears
twice in the secondary table.  No `DataError` is raised — the code has no
duplicate-key check at all — and the merge silently emits the duplicated
rows: the single matching primary row appears twice, once per secondary
match. -/
theorem merge_duplicate_keys_cex :
    mergeWithSpreadspoke [⟨⟨2023, "14", "X", "Y"⟩, 0⟩]
      [⟨⟨2023, "14", "X", "Y"⟩, 1⟩, ⟨⟨2023, "14", "X", "Y"⟩, 2⟩]
      = [(⟨⟨2023, "14", "X", "Y"⟩, 0⟩, some ⟨⟨2023, "14", "X", "Y"⟩, 1⟩),
        (⟨⟨2023, "14", "X", "Y"⟩, 0⟩, some ⟨⟨2023, "14", "X", "Y"⟩, 2⟩)] := rfl

/-- C5 (amended): the merge is total and never raises: its output length
obeys the left-join multiplicity law — each primary row contributes
`max 1 m` rows, where `m` is the number of secondary rows sharing its key —
so duplicate keys multiply rows instead of producing an error. -/
theorem merge_length_multiplicity (primary : List PrimaryRow)
    (secondary : List SecondaryRow) :
    (mergeWithSpreadspoke primary secondary).length =
      (primary.map fun p =>
        max 1 (secondary.filter fun s => s.key = p.key).length).sum := by
  induction primary with
  | nil => rfl
  | cons p t ih =>
    rw [mergeWithSpreadspoke, List.flatMap_cons, List.length_append, List.map_cons,
      List.sum_cons]
    rw [mergeWithSpreadspoke] at ih
    rw [ih]
    congr 1
    rcases hf : secondary.filter fun s => s.key = p.key with _ | ⟨s, ms⟩
    · rw [hf]
      simp
    · rw [hf]
      simp [Nat.max_eq_right]

lemma mean_reverse (l : List ℚ) : mean l.reverse = mean l := by
  rw [mean, mean, List.sum_reverse, List.length_reverse]

lemma sum_map_wonVal (l : List EntityGame) :
    (l.map wonVal).sum = ((l.filter fun g => g.allowed < g.scored).length : ℚ) := by
  induction l with
  | nil => simp
  | cons g t ih =>
    rw [List.map_cons, List.sum_cons, ih, wonVal]
    by_cases hg : g.allowed < g.scored
    · rw [if_pos hg, List.filter_cons_of_pos (by simpa using hg), List.length_cons]
      push_cast
      ring
    · rw [if_neg hg, List.filter_cons_of_neg (by simpa using hg)]
      ring

lemma mean_map_wonVal (l : List EntityGame) :
    mean (l.map wonVal) =
      ((l.filter fun g => g.allowed < g.scored).length : ℚ) / l.length := by
  rw [mean, sum_map_wonVal, List.length_map]

/-- C8 counterexample: for an entity whose last three games scored
10, 20, 30 (chronologically), `get_team_recent_stats` reports momentum
`mean(20, 10) − mean(30, 20) = −10` (its `points_scored` list is ordered
most-recent first, so `[-2:]` is the *oldest* two and `[:2]` the newest
two), while `add_rolling_features` would attach momentum `0` to that
entity's next game (only 3 < window+1 prior games, so the batch momentum is
still undefined and neutrally filled).  The two "momentum" statistics are
different quantities. -/
theorem predict_momentum_mismatch_cex :
    (getTeamRecentStats [⟨0, 10, 7⟩, ⟨7, 20, 7⟩, ⟨14, 30, 7⟩] 3).map PredStats.momentum
      = some (-10) ∧
    (snapshot 3 ([⟨0, 10, 7⟩, ⟨7, 20, 7⟩, ⟨14, 30, 7⟩] ++ [⟨21, 0, 0⟩]) 3).momentum = 0 ∧
    (getTeamRecentStats [⟨0, 10, 7⟩, ⟨7, 20, 7⟩, ⟨14, 30, 7⟩] 3).map PredStats.momentum
      ≠ some ((snapshot 3 ([⟨0, 10, 7⟩, ⟨7, 20, 7⟩, ⟨14, 30, 7⟩] ++ [⟨21, 0, 0⟩]) 3).momentum) := by
  have e1 : (getTeamRecentStats [⟨0, 10, 7⟩, ⟨7, 20, 7⟩, ⟨14, 30, 7⟩] 3).map
      PredStats.momentum = some (-10) := by
    simp +decide [getTeamRecentStats, mean]
    norm_num
  have e2 : (snapshot 3 ([⟨0, 10, 7⟩, ⟨7, 20, 7⟩, ⟨14, 30, 7⟩] ++ [⟨21, 0, 0⟩]) 3).momentum
      = 0 := by
    simp +decide [snapshot, fillSnapshot, rawSnapshot, momentumRaw, rollingMeanAt,
      windowVals, shiftOpt, mean, List.replicate_succ]
  refine ⟨e1, e2, ?_⟩
  rw [e1, e2]
  norm_num

/-- C8 (amended): `get_team_recent_stats` takes no reference date — it uses
the entity's most recent `n` games in the whole table.  For `n = 3`, its
`avg_points`, `avg_allowed` and `win_pct` coincide with the statistics
`add_rolling_features` (window 3) would attach to the entity's next game
appended after its history; its `momentum`, however, is a different
formula (see the counterexample). -/
theorem predict_matches_batch_stats (gs : List EntityGame) (g : EntityGame)
    (p : PredStats) (hp : getTeamRecentStats gs 3 = some p) :
    p.avgPoints = (snapshot 3 (gs ++ [g]) gs.length).avgPoints ∧
    p.avgAllowed = (snapshot 3 (gs ++ [g]) gs.length).avgAllowed ∧
    p.winPct = (snapshot 3 (gs ++ [g]) gs.length).winPct := by
  have hne : gs.isEmpty = false := by
    cases hgs : gs.isEmpty
    · rfl
    · rw [getTeamRecentStats, if_pos hgs] at hp
      exact absurd hp (by simp)
  rw [getTeamRecentStats, if_neg (by simp [hne])] at hp
  replace hp := Option.some_inj.mp hp
  subst hp
  have hi : gs.length < (gs ++ [g]).length := by simp
  have hk : 1 ≤ gs.length := by
    cases gs with
    | nil => simp at hne
    | cons a t => exact Nat.succ_le_succ (Nat.zero_le _)
  have htake : ∀ f : EntityGame → ℚ,
      ((gs ++ [g]).map f).take gs.length = gs.map f := by
    intro f
    rw [List.map_append]
    exact List.take_left' (by rw [List.length_map])
  have hrev : ∀ f : EntityGame → ℚ,
      mean ((gs.reverse.take 3).map f) = mean ((gs.map f).drop (gs.length - 3)) := by
    intro f
    rw [List.take_reverse, List.map_reverse, mean_reverse, List.map_drop]
  refine ⟨?_, ?_, ?_⟩
  · have hb := rollingField_char 3 (by norm_num) EntityGame.scored (gs ++ [g])
      gs.length hi
    simp only [snapshot, fillSnapshot, rawSnapshot]
    rw [hb, if_neg (by omega), Option.getD_some, htake]
    exact hrev EntityGame.scored
  · have hb := rollingField_char 3 (by norm_num) EntityGame.allowed (gs ++ [g])
      gs.length hi
    simp only [snapshot, fillSnapshot, rawSnapshot]
    rw [hb, if_neg (by omega), Option.getD_some, htake]
    exact hrev EntityGame.allowed
  · have hb := rollingField_char 3 (by norm_num) wonVal (gs ++ [g]) gs.length hi
    simp only [snapshot, fillSnapshot, rawSnapshot]
    rw [hb, if_neg (by omega), Option.getD_some, htake, ← List.map_drop,
      mean_map_wonVal, List.take_reverse, List.filter_reverse, List.length_reverse,
      List.length_reverse]

/-- Witness for C8 (amended) on the counterexample history 10/20/30:
`avg_points = 20` on both sides. -/
theorem predict_matches_batch_stats_witness :
    (⟨20, 7, 1, -10⟩ : PredStats).avgPoints
      = (snapshot 3 ([⟨0, 10, 7⟩, ⟨7, 20, 7⟩, ⟨14, 30, 7⟩] ++ [⟨21, 0, 0⟩]) 3).avgPoints := by
  have h := predict_matches_batch_stats [⟨0, 10, 7⟩, ⟨7, 20, 7⟩, ⟨14, 30, 7⟩]
    ⟨21, 0, 0⟩ ⟨20, 7, 1, -10⟩ (by
      simp +decide [getTeamRecentStats, mean]
      norm_num)
  exact h.1

end NflPredictor
